import Mathlib

/-!
Verification development for the real-time session engine of the coco
voice-coaching client (`src/client/src/pages/Home.tsx`).

The engine is shallowly embedded: the session lifecycle state machine, the
audio capture/encoding pipeline, the WebSocket event channel handlers and the
live-feed aggregation are translated into executable Lean definitions, and
the specified properties are proved about those definitions.

Modelling notes:
- JavaScript numbers are modelled as rationals (`ℚ`); the 16-bit store into
  an `Int16Array` is modelled by truncation toward zero followed by the
  two's-complement wrap of ECMAScript `ToInt16`.
- Inbound wire data is modelled as either a parsed JSON value or a value on
  which `JSON.parse` throws (`InboundData.malformed`).  Property access on a
  parsed value follows JavaScript semantics: accessing a property of `null`
  throws, accessing a missing property of an object (or a property of a
  non-object primitive) yields `undefined`, modelled as `none`.
- React `useState` values and `useRef` handles are fields of one
  `MachineState` record; a handler that throws is modelled with `Except`,
  and the fact that an uncaught exception in a callback leaves the rest of
  the page state untouched is modelled by the `deliverMessage` wrapper.
- The stale-closure behaviour of `processor.onaudioprocess` is modelled
  faithfully: the callback tests the `isPaused` value captured when the
  closure was installed (field `capturedPaused`), not the current flag.
-/

/-! ## JSON values and JavaScript property access -/

/-- JSON values as produced by `JSON.parse`. -/
inductive Json where
  | null
  | bool (b : Bool)
  | num (q : ℚ)
  | str (s : String)
  | arr (elems : List Json)
  | obj (fields : List (String × Json))

/-- Field lookup in a parsed JSON object.  ECMAScript `JSON.parse` keeps the
last occurrence of a duplicated key, so the lookup prefers later entries. -/
def lookupField : List (String × Json) → String → Option Json
  | [], _ => none
  | (k, v) :: rest, key =>
    match lookupField rest key with
    | some r => some r
    | none => if k = key then some v else none

/-- JavaScript property read `j.k` on a value that is known to be usable as a
base object: `none` is `undefined` (missing field, or primitive base). -/
def propGet : Json → String → Option Json
  | Json.obj fs, k => lookupField fs k
  | _, _ => none

/-- JavaScript property read `j.k` including the throwing case: reading a
property of `null` raises a `TypeError`. -/
def propAccess : Json → String → Except Unit (Option Json)
  | Json.null, _ => Except.error ()
  | Json.obj fs, k => Except.ok (lookupField fs k)
  | _, _ => Except.ok none

/-- Inbound wire data: either data that `JSON.parse` parses to a JSON value,
or data on which `JSON.parse` throws a `SyntaxError`. -/
inductive InboundData where
  | parsed (j : Json)
  | malformed

/-! ## PCM conversion (body of `processor.onaudioprocess`) -/

/-- `Math.max(-1, Math.min(1, inputData[i]))`. -/
def clampSample (x : ℚ) : ℚ := max (-1) (min 1 x)

/-- `s < 0 ? s * 0x8000 : s * 0x7FFF`. -/
def scaleSample (x : ℚ) : ℚ := if x < 0 then x * 32768 else x * 32767

/-- Truncation toward zero, the first stage of ECMAScript `ToInt16`. -/
def ratTrunc (x : ℚ) : ℤ := if 0 ≤ x then ⌊x⌋ else ⌈x⌉

/-- Two's-complement wrap into the signed 16-bit range, the second stage of
ECMAScript `ToInt16` (applied on storing into an `Int16Array`). -/
def toInt16 (n : ℤ) : ℤ := (n + 32768) % 65536 - 32768

/-- One sample of the conversion loop `pcm16[i] = s < 0 ? s * 0x8000 : s * 0x7FFF`
where `s` is the clamped input sample. -/
def pcm16Sample (x : ℚ) : ℤ := toInt16 (ratTrunc (scaleSample (clampSample x)))

/-- The whole buffer conversion: `Float32Array` to `Int16Array`. -/
def floatTo16BitPCM (xs : List ℚ) : List ℤ := xs.map pcm16Sample

/-! ## Data model of the recording screen -/

/-- `type Suggestion` of the source; `text` and `timestamp` are read off the
inbound message dynamically, so they may be `undefined`. -/
structure Suggestion where
  text : Option Json
  type : String
  priority : String
  timestamp : Option Json

/-- `type TranscriptEntry` of the source; fields are read off the inbound
message dynamically, so they may be `undefined`. -/
structure TranscriptEntry where
  speaker : Option Json
  text : Option Json
  timestamp : Option Json

/-- `interface SessionSummary` of the source. -/
structure SessionSummary where
  stars : List String
  wish : String
  filler_percentage : ℚ
  takeaways : List String
  summary_bullets : List String

/-- `type AppState` of the source. -/
inductive AppState where
  | nameEntry
  | contextMenu
  | editingContext
  | recording
deriving DecidableEq

/-- Connection state of the `WebSocket` held in `wsRef`: `noWs` is a null
ref, the other states are the readyState of the referenced socket. -/
inductive WsConn where
  | noWs
  | connecting
  | opened
  | closed
deriving DecidableEq

/-- The session context collected before a session (all free text). -/
structure SessionContext where
  userName : String
  eventDetails : String
  goals : String
  participants : String
  tone : String

/-- Body of the `POST /session` request built by `handleStartRecording`. -/
structure SessionRequest where
  context : String
  goal : String
  user_name : String
  participants : String
  tone : String

/-- JavaScript `s || d` on strings: the empty string is falsy. -/
def jsOrDefault (s d : String) : String := if s = "" then d else s

/-- The creation request body of `handleStartRecording` lines 275-281. -/
def buildSessionRequest (ctx : SessionContext) : SessionRequest :=
  { context := jsOrDefault ctx.eventDetails "General conversation"
    goal := jsOrDefault ctx.goals "Have a great conversation"
    user_name := ctx.userName
    participants := jsOrDefault ctx.participants ""
    tone := jsOrDefault ctx.tone "" }

/-! ## Machine state

One record holding the `useState` values and `useRef` handles of the
session engine.  The audio graph handles are abstracted to the facts the
engine observes about them: whether the processor node is connected
(`audioProcessorRef` non-null), whether the `AudioContext` exists and is
running, and whether the `MediaStream` tracks are still live. -/

structure MachineState where
  appState : AppState
  isLoadingSession : Bool
  isRecording : Bool
  isPaused : Bool
  isEndingSession : Bool
  sessionId : Option String
  wsConn : WsConn
  streamActive : Bool
  contextOpen : Bool
  contextRunning : Bool
  processorConnected : Bool
  capturedPaused : Bool
  transcriptEntries : List TranscriptEntry
  suggestions : List Suggestion
  sessionSummary : Option SessionSummary
  showFeedback : Bool

/-- The quiescent state on the context-menu screen, from which a session is
started: no session, no channel, no capture resources. -/
def idleState : MachineState :=
  { appState := AppState.contextMenu
    isLoadingSession := false
    isRecording := false
    isPaused := false
    isEndingSession := false
    sessionId := none
    wsConn := WsConn.noWs
    streamActive := false
    contextOpen := false
    contextRunning := false
    processorConnected := false
    capturedPaused := false
    transcriptEntries := []
    suggestions := []
    sessionSummary := none
    showFeedback := false }

/-- A live recording session: channel open, capture pipeline running. -/
def recordingState (id : String) (tr : List TranscriptEntry)
    (sg : List Suggestion) : MachineState :=
  { appState := AppState.recording
    isLoadingSession := false
    isRecording := true
    isPaused := false
    isEndingSession := false
    sessionId := some id
    wsConn := WsConn.opened
    streamActive := true
    contextOpen := true
    contextRunning := true
    processorConnected := true
    capturedPaused := false
    transcriptEntries := tr
    suggestions := sg
    sessionSummary := none
    showFeedback := false }

/-! ## Observable events

Everything the engine emits toward the outside world: messages on the
channel, side effects on the capture resources, HTTP requests and toasts.
Toast descriptions are elided; the title identifies the error category. -/

/-- Events observed by the WebSocket channel. -/
inductive ChanEvent where
  | frame (pcm : List ℤ)
  | stopMsg
  | close
deriving DecidableEq

/-- Observable actions of the engine. -/
inductive Obs where
  | chan (e : ChanEvent)
  | createSession (req : SessionRequest)
  | procDisconnect
  | ctxClose
  | trackStop
  | summaryRequest (id : String)
  | playAudio (data : Option Json)
  | toast (title : String)

/-! ## Environment outcomes for the asynchronous requests -/

/-- Outcome of the `POST /session` creation request: `fail` covers a thrown
fetch error, a non-ok response and a body that does not parse. -/
inductive CreateOutcome where
  | ok (id : String)
  | fail

/-- Error thrown by `getUserMedia`, classified as in the catch block. -/
inductive MicError where
  | notAllowed
  | notFound
  | otherErr (msg : String)

/-- Outcome of the `getUserMedia` request. -/
inductive MicOutcome where
  | ok
  | fail (e : MicError)

/-- Outcome of the `POST /session/:id/finish` summary request. -/
inductive SummaryOutcome where
  | ok (s : SessionSummary)
  | httpFail
  | transportFail

/-- The toast produced by the catch block of `handleStartRecording` for a
`getUserMedia` error (lines 399-418). -/
def micErrorToast : MicError → Obs
  | MicError.notAllowed => Obs.toast "Microphone Access Blocked"
  | MicError.notFound => Obs.toast "No Microphone Found"
  | MicError.otherErr _ => Obs.toast "Microphone Error"

/-! ## `handleStartRecording` (lines 265-420)

The closure installed as `processor.onaudioprocess` captures the render
scope value of `isPaused`, i.e. `s.isPaused` at invocation time, not the
value the flag has when the callback later runs; this captured value is
stored in `capturedPaused`.  The WebSocket is created in the `connecting`
state and opens asynchronously. -/

def handleStartRecording (ctx : SessionContext) (co : CreateOutcome)
    (mo : MicOutcome) (s : MachineState) : MachineState × List Obs :=
  let s1 := { s with isLoadingSession := true }
  match co with
  | CreateOutcome.fail =>
      -- `throw new Error('Failed to create session')`; error.name = "Error"
      -- falls into the generic branch of the catch block
      ({ s1 with isLoadingSession := false },
       [Obs.createSession (buildSessionRequest ctx), Obs.toast "Microphone Error"])
  | CreateOutcome.ok id =>
      let s2 := { s1 with sessionId := some id }
      match mo with
      | MicOutcome.fail e =>
          -- the catch block shows a toast but clears nothing besides the
          -- loading flag: `sessionIdRef` keeps the freshly created id
          ({ s2 with isLoadingSession := false },
           [Obs.createSession (buildSessionRequest ctx), micErrorToast e])
      | MicOutcome.ok =>
          ({ s2 with
              streamActive := true
              appState := AppState.recording
              isRecording := true
              isPaused := false
              isLoadingSession := false
              wsConn := WsConn.connecting
              contextOpen := true
              contextRunning := true
              processorConnected := true
              capturedPaused := s.isPaused },
           [Obs.createSession (buildSessionRequest ctx)])

/-! ## `ws.onmessage` (lines 317-352) and the live feed sinks -/

/-- `setSuggestions(prev => [newSuggestion, ...prev].slice(0, 3))`. -/
def insertSuggestion (sg : Suggestion) (prev : List Suggestion) :
    List Suggestion :=
  (sg :: prev).take 3

/-- The `ws.onmessage` handler.  `JSON.parse` and the `message.type` read may
throw (`Except.error`); the per-branch bodies cannot.  The `audio` branch
wraps decoding and playback in its own try/catch, so it reduces to one
playback attempt with no effect on the page state. -/
def onmessage (st : MachineState) (d : InboundData) :
    Except Unit (MachineState × List Obs) :=
  match d with
  | InboundData.malformed => Except.error ()
  | InboundData.parsed j =>
    match propAccess j "type" with
    | Except.error e => Except.error e
    | Except.ok t =>
      match t with
      | some (Json.str tv) =>
        if tv = "suggestion" then
          let sg : Suggestion :=
            { text := propGet j "text"
              type := "tip"
              priority := "high"
              timestamp := propGet j "timestamp" }
          Except.ok ({ st with suggestions := insertSuggestion sg st.suggestions }, [])
        else if tv = "transcript" then
          let entry : TranscriptEntry :=
            { speaker := propGet j "speaker"
              text := propGet j "text"
              timestamp := propGet j "timestamp" }
          Except.ok
            ({ st with transcriptEntries := st.transcriptEntries ++ [entry] }, [])
        else if tv = "audio" then
          Except.ok (st, [Obs.playAudio (propGet j "data")])
        else
          Except.ok (st, [])
      | _ => Except.ok (st, [])

/-- Effect of one inbound message on the page: an exception escaping the
handler is uncaught, so the page state is simply left unchanged. -/
def deliverMessage (st : MachineState) (d : InboundData) :
    MachineState × List Obs :=
  match onmessage st d with
  | Except.ok r => r
  | Except.error _ => (st, [])

/-- An inbound datum that parses to an object whose `type` field is the
string `"transcript"` (the messages the transcript sink counts). -/
def isTranscriptMsg (d : InboundData) : Bool :=
  match d with
  | InboundData.malformed => false
  | InboundData.parsed j =>
    match propAccess j "type" with
    | Except.ok (some (Json.str tv)) => tv = "transcript"
    | _ => false

/-- The handler throws before classification: `JSON.parse` fails, or the
payload parses to `null` so the `message.type` read throws. -/
def typeReadThrows (d : InboundData) : Bool :=
  match d with
  | InboundData.malformed => true
  | InboundData.parsed j =>
    match propAccess j "type" with
    | Except.error _ => true
    | Except.ok _ => false

/-- The datum parses and carries one of the three known discriminators. -/
def isKnownType (d : InboundData) : Bool :=
  match d with
  | InboundData.malformed => false
  | InboundData.parsed j =>
    match propAccess j "type" with
    | Except.ok (some (Json.str tv)) =>
        tv = "suggestion" || tv = "transcript" || tv = "audio"
    | _ => false

/-- Folding a whole inbound sequence through the page. -/
def processInbound (st : MachineState) (l : List InboundData) : MachineState :=
  l.foldl (fun s d => (deliverMessage s d).1) st

/-! ## `handleTogglePause` (lines 423-437) -/

def handleTogglePause (s : MachineState) : MachineState :=
  if s.isPaused then
    -- resume: `audioContextRef.current.resume()` if suspended
    { s with
        isPaused := false
        contextRunning :=
          if s.contextOpen && !s.contextRunning then true else s.contextRunning }
  else
    -- pause: `audioContextRef.current.suspend()` if running
    { s with
        isPaused := true
        contextRunning :=
          if s.contextOpen && s.contextRunning then false else s.contextRunning }

/-! ## `handleEndSession` (lines 440-499)

The teardown sequence: stop flags, disconnect the processor, close the
audio context, stop the stream tracks, send `{type:'stop'}` and close the
socket, request the summary, clear the feed state and the session id.

`WebSocket.send` on a socket still in the CONNECTING state throws an
`InvalidStateError`; `handleEndSession` has no try/catch around it, so in
that (reachable only before `onopen` fires) case the function aborts after
the capture teardown and the remaining steps never run.  `send` on a
CLOSED socket is silently discarded. -/

/-- The capture-release observations of lines 446-460, each guarded by its
ref being non-null: disconnect the processor, close the audio context, stop
every stream track. -/
def releaseObs (s : MachineState) : List Obs :=
  (if s.processorConnected then [Obs.procDisconnect] else []) ++
  (if s.contextOpen then [Obs.ctxClose] else []) ++
  (if s.streamActive then [Obs.trackStop] else [])

def handleEndSession (so : SummaryOutcome) (s : MachineState) :
    MachineState × List Obs :=
  let s4 : MachineState :=
    { s with
        isEndingSession := true
        isRecording := false
        isPaused := false
        processorConnected := false
        contextOpen := false
        contextRunning := false
        streamActive := false }
  match s.wsConn with
  | WsConn.connecting =>
      -- `wsRef.current.send(...)` throws InvalidStateError: teardown aborts
      (s4, releaseObs s)
  | w =>
      let wsObs : List Obs :=
        match w with
        | WsConn.opened => [Obs.chan ChanEvent.stopMsg, Obs.chan ChanEvent.close]
        | _ => []
      let s5 : MachineState := { s4 with wsConn := WsConn.noWs }
      let sumPart : MachineState × List Obs :=
        match s.sessionId with
        | none => (s5, [])  -- note: `isEndingSession` is reset only inside this branch
        | some id =>
          match so with
          | SummaryOutcome.ok sum =>
              ({ s5 with
                  sessionSummary := some sum
                  showFeedback := true
                  isEndingSession := false }, [Obs.summaryRequest id])
          | SummaryOutcome.httpFail =>
              -- `response.ok` false: silently skipped, no toast
              ({ s5 with isEndingSession := false }, [Obs.summaryRequest id])
          | SummaryOutcome.transportFail =>
              ({ s5 with isEndingSession := false },
               [Obs.summaryRequest id, Obs.toast "Error"])
      ({ sumPart.1 with
          transcriptEntries := []
          suggestions := []
          sessionId := none
          appState := AppState.contextMenu },
       releaseObs s ++ wsObs ++ sumPart.2)

/-! ## Scheduler: interleaved callbacks during one session

All work is event-driven on one execution context; a run of the session is
an arbitrary interleaving of capture ticks, socket lifecycle events, user
actions and inbound messages. -/

/-- One schedulable callback. -/
inductive Act where
  | captureTick (samples : List ℚ)
  | wsOpened
  | wsClosedRemote
  | togglePause
  | endSession (so : SummaryOutcome)
  | inbound (d : InboundData)

/-- One step of the interleaving semantics.  The capture callback fires only
while the processor node is connected and the `AudioContext` is running;
its body gates sending on `ws.readyState === WebSocket.OPEN` and on the
stale captured pause flag. -/
def step (s : MachineState) (a : Act) : MachineState × List Obs :=
  match a with
  | Act.captureTick samples =>
      if s.processorConnected = true ∧ s.contextRunning = true then
        if s.wsConn = WsConn.opened ∧ s.capturedPaused = false then
          (s, [Obs.chan (ChanEvent.frame (floatTo16BitPCM samples))])
        else (s, [])
      else (s, [])
  | Act.wsOpened =>
      (match s.wsConn with
       | WsConn.connecting => { s with wsConn := WsConn.opened }
       | _ => s, [])
  | Act.wsClosedRemote =>
      (match s.wsConn with
       | WsConn.connecting => { s with wsConn := WsConn.closed }
       | WsConn.opened => { s with wsConn := WsConn.closed }
       | _ => s, [])
  | Act.togglePause => (handleTogglePause s, [])
  | Act.endSession so => handleEndSession so s
  | Act.inbound d =>
      if s.wsConn = WsConn.opened then deliverMessage s d else (s, [])

/-- Running a schedule, collecting all observable events in order. -/
def run (s : MachineState) : List Act → MachineState × List Obs
  | [] => (s, [])
  | a :: rest =>
      let r := step s a
      let r2 := run r.1 rest
      (r2.1, r.2 ++ r2.2)

/-! ## Trace predicates for the channel-ordering invariant -/

/-- The observation is a binary audio frame on the channel. -/
def isFrameObs : Obs → Bool
  | Obs.chan (ChanEvent.frame _) => true
  | _ => false

/-- The observation is the `{type:'stop'}` control message on the channel. -/
def isStopObs : Obs → Bool
  | Obs.chan ChanEvent.stopMsg => true
  | _ => false

/-- Some binary audio frame occurs in the trace. -/
def hasFrame (l : List Obs) : Bool := l.any isFrameObs

/-- Some stop control message occurs in the trace. -/
def hasStop (l : List Obs) : Bool := l.any isStopObs

/-- A binary audio frame occurs somewhere after a stop control message. -/
def framesAfterStop : List Obs → Bool
  | [] => false
  | o :: rest => if isStopObs o then hasFrame rest else framesAfterStop rest

/-- The toast observations of the summary phase of `handleEndSession`. -/
def endToastObs : SummaryOutcome → List Obs
  | SummaryOutcome.transportFail => [Obs.toast "Error"]
  | _ => []

/-! ## PCM conversion properties (claim C5) -/

lemma clampSample_bounds (x : ℚ) : -1 ≤ clampSample x ∧ clampSample x ≤ 1 :=
  ⟨le_max_left _ _, max_le (by norm_num) (min_le_left _ _)⟩

lemma scaleSample_bounds (x : ℚ) (h1 : -1 ≤ x) (h2 : x ≤ 1) :
    -32768 ≤ scaleSample x ∧ scaleSample x ≤ 32767 := by
  unfold scaleSample
  split
  · constructor <;> nlinarith
  · constructor <;> nlinarith

lemma ratTrunc_bounds (q : ℚ) (h1 : -32768 ≤ q) (h2 : q ≤ 32767) :
    -32768 ≤ ratTrunc q ∧ ratTrunc q ≤ 32767 := by
  unfold ratTrunc
  split
  case isTrue h0 =>
    constructor
    · have h : (0:ℤ) ≤ ⌊q⌋ := Int.le_floor.mpr (by exact_mod_cast h0)
      omega
    · have hf : (⌊q⌋ : ℚ) ≤ q := Int.floor_le q
      have h : (⌊q⌋ : ℚ) ≤ 32767 := le_trans hf h2
      exact_mod_cast h
  case isFalse h0 =>
    constructor
    · have hc : q ≤ (⌈q⌉ : ℚ) := Int.le_ceil q
      have h : (-32768 : ℚ) ≤ (⌈q⌉ : ℚ) := le_trans h1 hc
      exact_mod_cast h
    · have h : ⌈q⌉ ≤ (0:ℤ) := Int.ceil_le.mpr (by push_cast; linarith)
      omega

lemma toInt16_id (n : ℤ) (h1 : -32768 ≤ n) (h2 : n ≤ 32767) : toInt16 n = n := by
  unfold toInt16; omega

lemma pcm16Sample_one : pcm16Sample 1 = 32767 := by
  have h1 : clampSample 1 = 1 := by norm_num [clampSample]
  have h2 : scaleSample 1 = 32767 := by norm_num [scaleSample]
  have h3 : ratTrunc (32767 : ℚ) = 32767 := by
    have hc : ((32767 : ℚ)) = ((32767 : ℤ) : ℚ) := by norm_num
    rw [ratTrunc, if_pos (by norm_num), hc, Int.floor_intCast]
  rw [pcm16Sample, h1, h2, h3]
  decide

lemma pcm16Sample_negOne : pcm16Sample (-1) = -32768 := by
  have h1 : clampSample (-1) = -1 := by norm_num [clampSample]
  have h2 : scaleSample (-1) = -32768 := by norm_num [scaleSample]
  have h3 : ratTrunc (-32768 : ℚ) = -32768 := by
    have hc : ((-32768 : ℚ)) = ((-32768 : ℤ) : ℚ) := by norm_num
    rw [ratTrunc, if_neg (by norm_num), hc, Int.ceil_intCast]
  rw [pcm16Sample, h1, h2, h3]
  decide

lemma pcm16Sample_zero : pcm16Sample 0 = 0 := by
  have h1 : clampSample 0 = 0 := by norm_num [clampSample]
  have h2 : scaleSample 0 = 0 := by norm_num [scaleSample]
  have h3 : ratTrunc (0 : ℚ) = 0 := by
    rw [ratTrunc, if_pos (by norm_num), Int.floor_zero]
  rw [pcm16Sample, h1, h2, h3]
  decide

/-- C5: PCM conversion clamps each floating-point input sample to `[-1, 1]`
and scales asymmetrically (`×32767` for non-negative samples, `×32768` for
negative samples, per `scaleSample`), so that input `1.0` maps to `32767`,
input `-1.0` maps to `-32768`, input `0.0` maps to `0`, and every output lies
within `[-32768, 32767]` even for inputs outside `[-1, 1]`. -/
theorem c5_pcm_conversion (x : ℚ) :
    pcm16Sample 1 = 32767 ∧ pcm16Sample (-1) = -32768 ∧ pcm16Sample 0 = 0 ∧
    -32768 ≤ pcm16Sample x ∧ pcm16Sample x ≤ 32767 := by
  refine ⟨pcm16Sample_one, pcm16Sample_negOne, pcm16Sample_zero, ?_, ?_⟩ <;>
  · obtain ⟨hc1, hc2⟩ := clampSample_bounds x
    obtain ⟨hs1, hs2⟩ := scaleSample_bounds _ hc1 hc2
    obtain ⟨ht1, ht2⟩ := ratTrunc_bounds _ hs1 hs2
    unfold pcm16Sample
    rw [toInt16_id _ ht1 ht2]
    omega

/-! ## Suggestion sink properties (claim C4) -/

/-- The suggestion list after an arrival sequence has been folded through
`setSuggestions(prev => [newSuggestion, ...prev].slice(0, 3))`, starting
from the empty initial state. -/
def suggestionsAfter (l : List Suggestion) : List Suggestion :=
  l.foldl (fun acc sg => insertSuggestion sg acc) []

lemma take3_append (a b : List Suggestion) :
    (a ++ b.take 3).take 3 = (a ++ b).take 3 := by
  rw [List.take_append_eq_append_take, List.take_append_eq_append_take,
    List.take_take]
  have h : min (3 - a.length) 3 = 3 - a.length := by omega
  rw [h]

lemma foldl_insertSuggestion (l : List Suggestion) :
    ∀ acc, acc.length ≤ 3 →
      l.foldl (fun acc sg => insertSuggestion sg acc) acc =
        (l.reverse ++ acc).take 3 := by
  induction l with
  | nil =>
      intro acc h
      simpa using (List.take_of_length_le h).symm
  | cons x l ih =>
      intro acc h
      have hlen : ((x :: acc).take 3).length ≤ 3 := by
        simp [List.length_take]
      rw [List.foldl_cons]
      have hins : insertSuggestion x acc = (x :: acc).take 3 := rfl
      rw [hins, ih _ hlen, take3_append]
      simp

/-! ## Shape of one inbound message delivery

`ws.onmessage` only ever touches the two feed sinks; every other piece of
page state, the refs included, is left alone, and nothing is sent on the
channel from the inbound path. -/

/-- The two states agree on everything except possibly the two feed sinks. -/
def feedsOnlyUpdate (st st' : MachineState) : Prop :=
  st'.appState = st.appState ∧
  st'.isLoadingSession = st.isLoadingSession ∧
  st'.isRecording = st.isRecording ∧
  st'.isPaused = st.isPaused ∧
  st'.isEndingSession = st.isEndingSession ∧
  st'.sessionId = st.sessionId ∧
  st'.wsConn = st.wsConn ∧
  st'.streamActive = st.streamActive ∧
  st'.contextOpen = st.contextOpen ∧
  st'.contextRunning = st.contextRunning ∧
  st'.processorConnected = st.processorConnected ∧
  st'.capturedPaused = st.capturedPaused ∧
  st'.sessionSummary = st.sessionSummary ∧
  st'.showFeedback = st.showFeedback


lemma feedsOnlyUpdate_mk (st : MachineState) (tr : List TranscriptEntry)
    (sg : List Suggestion) :
    feedsOnlyUpdate st { st with transcriptEntries := tr, suggestions := sg } :=
  ⟨rfl, rfl, rfl, rfl, rfl, rfl, rfl, rfl, rfl, rfl, rfl, rfl, rfl, rfl⟩

lemma deliverMessage_shape (st : MachineState) (d : InboundData) :
    feedsOnlyUpdate st (deliverMessage st d).1 ∧
    (∃ t, (deliverMessage st d).1.transcriptEntries = st.transcriptEntries ++ t ∧
      t.length = (if isTranscriptMsg d then 1 else 0)) ∧
    ((deliverMessage st d).1.suggestions = st.suggestions ∨
      ∃ sg, (deliverMessage st d).1.suggestions = insertSuggestion sg st.suggestions) ∧
    hasFrame (deliverMessage st d).2 = false ∧
    hasStop (deliverMessage st d).2 = false := by
  cases d with
  | malformed =>
      exact ⟨feedsOnlyUpdate_mk st _ _, ⟨[], by simp [deliverMessage, onmessage],
        by simp [isTranscriptMsg]⟩, Or.inl rfl, rfl, rfl⟩
  | parsed j =>
      cases hp : propAccess j "type" with
      | error e =>
          refine ⟨?_, ⟨[], ?_, ?_⟩, ?_, ?_, ?_⟩ <;>
            simp only [deliverMessage, onmessage, isTranscriptMsg, hp] <;>
            first
              | exact feedsOnlyUpdate_mk st _ _
              | rfl
              | exact Or.inl rfl
              | simp
      | ok t =>
          match t with
          | none =>
              refine ⟨?_, ⟨[], ?_, ?_⟩, ?_, ?_, ?_⟩ <;>
                simp only [deliverMessage, onmessage, isTranscriptMsg, hp] <;>
                first
                  | exact feedsOnlyUpdate_mk st _ _
                  | rfl
                  | exact Or.inl rfl
                  | simp
          | some (Json.str tv) =>
              by_cases h1 : tv = "suggestion"
              · have hnt : (tv = "transcript") = False := by
                  subst h1; simp
                refine ⟨?_, ⟨[], ?_, ?_⟩, ?_, ?_, ?_⟩ <;>
                  simp only [deliverMessage, onmessage, isTranscriptMsg, hp, h1,
                    if_true, if_pos rfl] <;>
                  first
                    | exact feedsOnlyUpdate_mk st _ _
                    | rfl
                    | exact Or.inr ⟨_, rfl⟩
                    | simp [hnt]
              · by_cases h2 : tv = "transcript"
                · refine ⟨?_, ⟨[TranscriptEntry.mk (propGet j "speaker") (propGet j "text")
                      (propGet j "timestamp")], ?_, ?_⟩, ?_, ?_, ?_⟩ <;>
                    simp only [deliverMessage, onmessage, isTranscriptMsg, hp,
                      if_neg h1, h2, if_pos rfl] <;>
                    first
                      | exact feedsOnlyUpdate_mk st _ _
                      | rfl
                      | exact Or.inl rfl
                · by_cases h3 : tv = "audio"
                  · refine ⟨?_, ⟨[], ?_, ?_⟩, ?_, ?_, ?_⟩ <;>
                      simp only [deliverMessage, onmessage, isTranscriptMsg, hp,
                        if_neg h1, if_neg h2, h3, if_pos rfl] <;>
                      first
                        | exact feedsOnlyUpdate_mk st _ _
                        | rfl
                        | exact Or.inl rfl
                        | simp [h2]
                  · refine ⟨?_, ⟨[], ?_, ?_⟩, ?_, ?_, ?_⟩ <;>
                      simp only [deliverMessage, onmessage, isTranscriptMsg, hp,
                        if_neg h1, if_neg h2, if_neg h3] <;>
                      first
                        | exact feedsOnlyUpdate_mk st _ _
                        | rfl
                        | exact Or.inl rfl
                        | simp [h2]
          | some Json.null =>
              refine ⟨?_, ⟨[], ?_, ?_⟩, ?_, ?_, ?_⟩ <;>
                simp only [deliverMessage, onmessage, isTranscriptMsg, hp] <;>
                first
                  | exact feedsOnlyUpdate_mk st _ _
                  | rfl
                  | exact Or.inl rfl
                  | simp
          | some (Json.bool b) =>
              refine ⟨?_, ⟨[], ?_, ?_⟩, ?_, ?_, ?_⟩ <;>
                simp only [deliverMessage, onmessage, isTranscriptMsg, hp] <;>
                first
                  | exact feedsOnlyUpdate_mk st _ _
                  | rfl
                  | exact Or.inl rfl
                  | simp
          | some (Json.num q) =>
              refine ⟨?_, ⟨[], ?_, ?_⟩, ?_, ?_, ?_⟩ <;>
                simp only [deliverMessage, onmessage, isTranscriptMsg, hp] <;>
                first
                  | exact feedsOnlyUpdate_mk st _ _
                  | rfl
                  | exact Or.inl rfl
                  | simp
          | some (Json.arr xs) =>
              refine ⟨?_, ⟨[], ?_, ?_⟩, ?_, ?_, ?_⟩ <;>
                simp only [deliverMessage, onmessage, isTranscriptMsg, hp] <;>
                first
                  | exact feedsOnlyUpdate_mk st _ _
                  | rfl
                  | exact Or.inl rfl
                  | simp
          | some (Json.obj fs) =>
              refine ⟨?_, ⟨[], ?_, ?_⟩, ?_, ?_, ?_⟩ <;>
                simp only [deliverMessage, onmessage, isTranscriptMsg, hp] <;>
                first
                  | exact feedsOnlyUpdate_mk st _ _
                  | rfl
                  | exact Or.inl rfl
                  | simp

/-- C4: the suggestion sink never holds more than 3 entries: folding any
arrival sequence `s1..sN` through the insertion step retains exactly the
most recent 3 (all of them when N ≤ 3), kept most-recent-first, the oldest
evicted on each insertion beyond 3 and no deduplication — it equals
`reverse` followed by `take 3`; moreover an arbitrary inbound message never
grows the sink beyond the maximum of its current size and 3. -/
theorem c4_suggestion_sink (l : List Suggestion) (st : MachineState)
    (d : InboundData) :
    suggestionsAfter l = l.reverse.take 3 ∧
    (suggestionsAfter l).length ≤ 3 ∧
    (deliverMessage st d).1.suggestions.length ≤ max st.suggestions.length 3 := by
  have h0 : suggestionsAfter l = (l.reverse ++ []).take 3 :=
    foldl_insertSuggestion l [] (by simp)
  have h1 : suggestionsAfter l = l.reverse.take 3 := by simpa using h0
  refine ⟨h1, ?_, ?_⟩
  · rw [h1]
    simp [List.length_take]
  · rcases (deliverMessage_shape st d).2.2.1 with h | ⟨sg, h⟩
    · rw [h]; exact le_max_left _ _
    · rw [h]
      refine le_trans ?_ (le_max_right _ _)
      simp [insertSuggestion, List.length_take]

/-! ## Session-creation request (claim C9) -/

/-- The context used in the end-to-end scenario: `userName="Ana"`, all
optional fields left empty. -/
def ctxAna : SessionContext :=
  { userName := "Ana", eventDetails := "", goals := "", participants := "", tone := "" }

/-- C9 counterexample: the claim says every optional context field left
empty is replaced by a sentinel default; in the request actually built for
the all-empty context, `participants` and `tone` are sent as the empty
string itself — no sentinel is substituted for them (only `context` and
`goal` get sentinels). -/
theorem c9_counterexample :
    (buildSessionRequest ctxAna).participants = "" ∧
    (buildSessionRequest ctxAna).tone = "" ∧
    (buildSessionRequest ctxAna).context = "General conversation" ∧
    (buildSessionRequest ctxAna).goal = "Have a great conversation" :=
  ⟨rfl, rfl, rfl, rfl⟩

/-- C9 (amended): the creation request always carries the required
`userName`; of the optional fields, `eventDetails` and `goals` are replaced
by sentinel defaults when empty, while `participants` and `tone` are passed
through unchanged (the empty string when absent); and every run of
`handleStartRecording` sends exactly this request first. -/
theorem c9_amended (ctx : SessionContext) (co : CreateOutcome)
    (mo : MicOutcome) (s : MachineState) :
    (buildSessionRequest ctx).user_name = ctx.userName ∧
    (buildSessionRequest ctx).context =
      (if ctx.eventDetails = "" then "General conversation" else ctx.eventDetails) ∧
    (buildSessionRequest ctx).goal =
      (if ctx.goals = "" then "Have a great conversation" else ctx.goals) ∧
    (buildSessionRequest ctx).participants = ctx.participants ∧
    (buildSessionRequest ctx).tone = ctx.tone ∧
    (∃ rest, (handleStartRecording ctx co mo s).2 =
      Obs.createSession (buildSessionRequest ctx) :: rest) := by
  have hpass : ∀ str : String, jsOrDefault str "" = str := by
    intro str
    unfold jsOrDefault
    split
    · simp [*]
    · rfl
  refine ⟨rfl, rfl, rfl, hpass _, hpass _, ?_⟩
  cases co with
  | fail => exact ⟨[Obs.toast "Microphone Error"], rfl⟩
  | ok id =>
      cases mo with
      | fail e => exact ⟨[micErrorToast e], rfl⟩
      | ok => exact ⟨[], rfl⟩

/-! ## Start paths (claim C2) -/

/-- C2 counterexample: from the idle state, a run of `start()` in which
session creation succeeds (id `"sess-1"`) and the microphone permission is
then denied neither reaches `Active(Recording)` nor returns to Idle with no
partial state: the machine is not recording and holds no channel, yet the
session id `"sess-1"` is left behind (the catch block never clears
`sessionIdRef`). -/
theorem c2_counterexample :
    (handleStartRecording ctxAna (CreateOutcome.ok "sess-1")
        (MicOutcome.fail MicError.notAllowed) idleState).1.isRecording = false ∧
    (handleStartRecording ctxAna (CreateOutcome.ok "sess-1")
        (MicOutcome.fail MicError.notAllowed) idleState).1.wsConn = WsConn.noWs ∧
    (handleStartRecording ctxAna (CreateOutcome.ok "sess-1")
        (MicOutcome.fail MicError.notAllowed) idleState).1.sessionId = some "sess-1" :=
  ⟨rfl, rfl, rfl⟩

/-- C2 (amended): from the idle state, `start()` with a valid context
either reaches `Active(Recording)` with exactly one channel created (still
completing its asynchronous open) and one running capture pipeline, or
fails.  A failure of the creation request itself returns exactly to the
idle state with zero resources; but a microphone failure after a successful
creation, while leaving no stream, audio context or channel behind, keeps
the created session id — the return to Idle is not free of partial state. -/
theorem c2_amended (ctx : SessionContext) (id : String) (e : MicError)
    (mo : MicOutcome) :
    (handleStartRecording ctx (CreateOutcome.ok id) MicOutcome.ok idleState).1 =
      { idleState with
          sessionId := some id
          appState := AppState.recording
          isRecording := true
          wsConn := WsConn.connecting
          streamActive := true
          contextOpen := true
          contextRunning := true
          processorConnected := true } ∧
    (handleStartRecording ctx CreateOutcome.fail mo idleState).1 = idleState ∧
    (handleStartRecording ctx (CreateOutcome.ok id) (MicOutcome.fail e) idleState).1 =
      { idleState with sessionId := some id } :=
  ⟨rfl, rfl, rfl⟩

/-! ## Malformed inbound messages (claim C6) -/

/-- C6 counterexample: an inbound datum on which `JSON.parse` fails makes
the `ws.onmessage` handler raise (the parse at line 318 is not wrapped in
any try/catch), so the handler does not terminate normally and no
diagnostic is logged for it — refuting the claim that every malformed
inbound message is dropped with a logged diagnostic and normal
termination. -/
theorem c6_counterexample :
    onmessage idleState InboundData.malformed = Except.error () := rfl

/-- C6 (amended): an inbound message whose `type` read throws (parse
failure, or a payload parsing to `null`) makes the handler terminate
abnormally with an uncaught exception — yet the page state is unchanged and
the channel is not affected; a message that parses but carries an unknown
type discriminator is silently dropped (after the unconditional
`console.log` of the parsed message) with normal termination and unchanged
state. -/
theorem c6_amended :
    (∀ (st : MachineState) (d : InboundData), typeReadThrows d = true →
      onmessage st d = Except.error () ∧ deliverMessage st d = (st, [])) ∧
    (∀ (st : MachineState) (d : InboundData), typeReadThrows d = false →
      isKnownType d = false → onmessage st d = Except.ok (st, [])) := by
  constructor
  · intro st d h
    cases d with
    | malformed => exact ⟨rfl, rfl⟩
    | parsed j =>
        cases hp : propAccess j "type" with
        | error e =>
            cases e
            exact ⟨by simp [onmessage, hp], by simp [deliverMessage, onmessage, hp]⟩
        | ok t => simp [typeReadThrows, hp] at h
  · intro st d h1 h2
    cases d with
    | malformed => simp [typeReadThrows] at h1
    | parsed j =>
        cases hp : propAccess j "type" with
        | error e => simp [typeReadThrows, hp] at h1
        | ok t =>
            match t with
            | none => simp [onmessage, hp]
            | some (Json.str tv) =>
                simp only [isKnownType, hp, Bool.or_eq_false_iff,
                  decide_eq_false_iff_not] at h2
                simp [onmessage, hp, h2.1.1, h2.1.2, h2.2]
            | some Json.null => simp [onmessage, hp]
            | some (Json.bool b) => simp [onmessage, hp]
            | some (Json.num q) => simp [onmessage, hp]
            | some (Json.arr xs) => simp [onmessage, hp]
            | some (Json.obj fs) => simp [onmessage, hp]

/-- C6 witness: the amended behaviour at concrete inputs — a parse failure
leaves the page unchanged, and a message with the unknown discriminator
`"mystery"` is dropped with normal termination. -/
theorem c6_amended_witness :
    deliverMessage idleState InboundData.malformed = (idleState, []) ∧
    onmessage idleState
        (InboundData.parsed (Json.obj [("type", Json.str "mystery")])) =
      Except.ok (idleState, []) :=
  ⟨(c6_amended.1 idleState InboundData.malformed rfl).2,
   c6_amended.2 idleState _ (by decide) (by decide)⟩

/-! ## Summary failure during teardown (claim C7) -/

/-- C7 counterexample: when the summary request returns a non-success
response, `handleEndSession` emits no error toast at all (the `!response.ok`
case is silently skipped): the complete observable trace of that run is the
teardown sequence plus the single summary request — refuting "surfaces an
error" for the non-success half of the claim. -/
theorem c7_counterexample :
    (handleEndSession SummaryOutcome.httpFail (recordingState "sess-1" [] [])).2 =
      [Obs.procDisconnect, Obs.ctxClose, Obs.trackStop,
       Obs.chan ChanEvent.stopMsg, Obs.chan ChanEvent.close,
       Obs.summaryRequest "sess-1"] := rfl

/-- C7 (amended): if the summary request fails during `end()` the machine
still completes teardown — capture stopped, channel closed after the stop
message, transcript/suggestions/session id cleared — returns exactly to the
idle state, and requests the summary exactly once (no retry); but an error
is surfaced only for a transport failure, while a non-success response is
silently ignored. -/
theorem c7_amended (id : String) (tr : List TranscriptEntry)
    (sg : List Suggestion) :
    (handleEndSession SummaryOutcome.httpFail (recordingState id tr sg)).1 =
      idleState ∧
    (handleEndSession SummaryOutcome.transportFail (recordingState id tr sg)).1 =
      idleState ∧
    (handleEndSession SummaryOutcome.httpFail (recordingState id tr sg)).2 =
      [Obs.procDisconnect, Obs.ctxClose, Obs.trackStop,
       Obs.chan ChanEvent.stopMsg, Obs.chan ChanEvent.close,
       Obs.summaryRequest id] ∧
    (handleEndSession SummaryOutcome.transportFail (recordingState id tr sg)).2 =
      [Obs.procDisconnect, Obs.ctxClose, Obs.trackStop,
       Obs.chan ChanEvent.stopMsg, Obs.chan ChanEvent.close,
       Obs.summaryRequest id, Obs.toast "Error"] :=
  ⟨rfl, rfl, rfl, rfl⟩

/-! ## Transcript sink (claim C8) -/

/-- Number of well-formed transcript-typed messages in an inbound sequence. -/
def countTranscript (l : List InboundData) : ℕ := l.countP isTranscriptMsg

lemma processInbound_length (l : List InboundData) :
    ∀ st : MachineState, (processInbound st l).transcriptEntries.length =
      st.transcriptEntries.length + countTranscript l := by
  induction l with
  | nil => intro st; simp [processInbound, countTranscript]
  | cons d l ih =>
      intro st
      obtain ⟨t, ht, htl⟩ := (deliverMessage_shape st d).2.1
      have hstep : processInbound st (d :: l) =
          processInbound (deliverMessage st d).1 l := rfl
      rw [hstep, ih, ht]
      simp only [countTranscript, List.countP_cons, List.length_append, htl]
      split <;> omega

/-- C8: the transcript sink is append-only (each delivery only appends, so
entries are never mutated after insertion), its length after any inbound
sequence received from session start equals exactly the number of
well-formed transcript-typed messages in that sequence (each such message
appends exactly one entry, everything else appends none), and the sequence
is cleared on session end. -/
theorem c8_transcript_sink (st : MachineState) (l : List InboundData)
    (d : InboundData) (id : String) (tr : List TranscriptEntry)
    (sg : List Suggestion) (so : SummaryOutcome) :
    (processInbound idleState l).transcriptEntries.length = countTranscript l ∧
    (processInbound st l).transcriptEntries.length =
      st.transcriptEntries.length + countTranscript l ∧
    (∃ t, (deliverMessage st d).1.transcriptEntries = st.transcriptEntries ++ t ∧
      t.length = (if isTranscriptMsg d then 1 else 0)) ∧
    (handleEndSession so (recordingState id tr sg)).1.transcriptEntries = [] := by
  refine ⟨?_, processInbound_length l st, (deliverMessage_shape st d).2.1, ?_⟩
  · have h := processInbound_length l idleState
    simpa [idleState] using h
  · cases so <;> rfl

/-! ## Channel-ordering invariant (claim C1) -/

/-- The channel can no longer carry outbound traffic (socket absent or
closed). -/
def deadChan (s : MachineState) : Prop :=
  s.wsConn ≠ WsConn.connecting ∧ s.wsConn ≠ WsConn.opened

lemma releaseObs_hasFrame (s : MachineState) : hasFrame (releaseObs s) = false := by
  unfold releaseObs hasFrame
  split_ifs <;> simp [isFrameObs]

lemma releaseObs_hasStop (s : MachineState) : hasStop (releaseObs s) = false := by
  unfold releaseObs hasStop
  split_ifs <;> simp [isStopObs]

lemma handleTogglePause_untouched (s : MachineState) :
    (handleTogglePause s).wsConn = s.wsConn ∧
    (handleTogglePause s).sessionId = s.sessionId ∧
    (handleTogglePause s).processorConnected = s.processorConnected ∧
    (handleTogglePause s).capturedPaused = s.capturedPaused ∧
    (handleTogglePause s).contextOpen = s.contextOpen := by
  unfold handleTogglePause
  split <;> exact ⟨rfl, rfl, rfl, rfl, rfl⟩

lemma hasFrame_append (a b : List Obs) :
    hasFrame (a ++ b) = (hasFrame a || hasFrame b) := by
  simp [hasFrame]

lemma hasStop_append (a b : List Obs) :
    hasStop (a ++ b) = (hasStop a || hasStop b) := by
  simp [hasStop]

lemma step_dead_preserved (s : MachineState) (a : Act) (h : deadChan s) :
    deadChan (step s a).1 ∧ hasFrame (step s a).2 = false ∧
    hasStop (step s a).2 = false := by
  cases a with
  | captureTick x =>
      have hno : ¬(s.wsConn = WsConn.opened ∧ s.capturedPaused = false) :=
        fun hc => h.2 hc.1
      by_cases ho : s.processorConnected = true ∧ s.contextRunning = true
      · simp only [step, if_pos ho, if_neg hno]
        exact ⟨h, rfl, rfl⟩
      · simp only [step, if_neg ho]
        exact ⟨h, rfl, rfl⟩
  | wsOpened =>
      cases hw : s.wsConn with
      | connecting => exact absurd hw h.1
      | noWs => simpa [step, hw] using ⟨h, rfl, rfl⟩
      | opened => exact absurd hw h.2
      | closed => simpa [step, hw] using ⟨h, rfl, rfl⟩
  | wsClosedRemote =>
      cases hw : s.wsConn with
      | connecting => exact absurd hw h.1
      | noWs => simpa [step, hw] using ⟨h, rfl, rfl⟩
      | opened => exact absurd hw h.2
      | closed => simpa [step, hw] using ⟨h, rfl, rfl⟩
  | togglePause =>
      refine ⟨?_, rfl, rfl⟩
      have hw := (handleTogglePause_untouched s).1
      exact ⟨fun hc => h.1 (hw ▸ hc), fun hc => h.2 (hw ▸ hc)⟩
  | endSession so =>
      cases hw : s.wsConn with
      | connecting => exact absurd hw h.1
      | opened => exact absurd hw h.2
      | noWs =>
          cases hsid : s.sessionId <;> cases so <;>
            (simp only [step, handleEndSession, hw, hsid, hasFrame_append,
              hasStop_append, releaseObs_hasFrame, releaseObs_hasStop,
              Bool.false_or];
             exact ⟨⟨by simp, by simp⟩, rfl, rfl⟩)
      | closed =>
          cases hsid : s.sessionId <;> cases so <;>
            (simp only [step, handleEndSession, hw, hsid, hasFrame_append,
              hasStop_append, releaseObs_hasFrame, releaseObs_hasStop,
              Bool.false_or];
             exact ⟨⟨by simp, by simp⟩, rfl, rfl⟩)
  | inbound d =>
      have hno : ¬s.wsConn = WsConn.opened := h.2
      simp only [step, if_neg hno]
      exact ⟨h, rfl, rfl⟩

lemma run_dead (acts : List Act) : ∀ s : MachineState, deadChan s →
    deadChan (run s acts).1 ∧ hasFrame (run s acts).2 = false := by
  induction acts with
  | nil => intro s h; exact ⟨h, rfl⟩
  | cons a acts ih =>
      intro s h
      obtain ⟨hd, hf, -⟩ := step_dead_preserved s a h
      obtain ⟨hd2, hf2⟩ := ih (step s a).1 hd
      refine ⟨hd2, ?_⟩
      show hasFrame ((step s a).2 ++ (run (step s a).1 acts).2) = false
      rw [hasFrame_append, hf, hf2]
      rfl

lemma fas_of_no_stop (l : List Obs) : hasStop l = false →
    framesAfterStop l = false := by
  induction l with
  | nil => intro _; rfl
  | cons o rest ih =>
      intro h
      have h' : (isStopObs o || hasStop rest) = false := by
        simpa [hasStop] using h
      rcases Bool.or_eq_false_iff.mp h' with ⟨h1, h2⟩
      simp only [framesAfterStop, h1, Bool.false_eq_true, if_false]
      exact ih h2

lemma fas_append_false : ∀ l1 l2 : List Obs,
    framesAfterStop l1 = false → (hasStop l1 = true → hasFrame l2 = false) →
    framesAfterStop l2 = false → framesAfterStop (l1 ++ l2) = false := by
  intro l1
  induction l1 with
  | nil => intro l2 _ _ h3; simpa using h3
  | cons o rest ih =>
      intro l2 h1 h2 h3
      cases ho : isStopObs o with
      | true =>
          have hf1 : hasFrame rest = false := by
            simpa [framesAfterStop, ho] using h1
          have hf2 : hasFrame l2 = false := h2 (by simp [hasStop, ho])
          show framesAfterStop (o :: (rest ++ l2)) = false
          simp [framesAfterStop, ho, hasFrame_append, hf1, hf2]
      | false =>
          have h1' : framesAfterStop rest = false := by
            simpa [framesAfterStop, ho] using h1
          have h2' : hasStop rest = true → hasFrame l2 = false := by
            intro hs
            exact h2 (by simp [hasStop] at hs ⊢; exact Or.inr hs)
          show framesAfterStop (o :: (rest ++ l2)) = false
          simp only [framesAfterStop, ho, Bool.false_eq_true, if_false]
          exact ih l2 h1' h2' h3

lemma step_fas (s : MachineState) (a : Act) :
    framesAfterStop (step s a).2 = false ∧
    (hasStop (step s a).2 = true → deadChan (step s a).1) := by
  cases a with
  | captureTick x =>
      by_cases ho : s.processorConnected = true ∧ s.contextRunning = true
      · by_cases hw : s.wsConn = WsConn.opened ∧ s.capturedPaused = false
        · simp only [step, if_pos ho, if_pos hw]
          exact ⟨rfl, fun hc => by simp [hasStop, isStopObs] at hc⟩
        · simp only [step, if_pos ho, if_neg hw]
          exact ⟨rfl, fun hc => by simp [hasStop] at hc⟩
      · simp only [step, if_neg ho]
        exact ⟨rfl, fun hc => by simp [hasStop] at hc⟩
  | wsOpened =>
      exact ⟨rfl, fun hc => Bool.noConfusion hc⟩
  | wsClosedRemote =>
      exact ⟨rfl, fun hc => Bool.noConfusion hc⟩
  | togglePause =>
      exact ⟨rfl, fun hc => Bool.noConfusion hc⟩
  | inbound d =>
      by_cases hw : s.wsConn = WsConn.opened
      · simp only [step, if_pos hw]
        have hsh := (deliverMessage_shape s d).2.2.2
        refine ⟨fas_of_no_stop _ hsh.2, fun hc => ?_⟩
        rw [hsh.2] at hc
        exact Bool.noConfusion hc
      · simp only [step, if_neg hw]
        exact ⟨rfl, fun hc => by simp [hasStop] at hc⟩
  | endSession so =>
      cases hw : s.wsConn with
      | connecting =>
          simp only [step, handleEndSession, hw]
          refine ⟨fas_of_no_stop _ (releaseObs_hasStop s), fun hc => ?_⟩
          rw [releaseObs_hasStop] at hc
          exact Bool.noConfusion hc
      | noWs =>
          cases hsid : s.sessionId <;> cases so <;>
            (simp only [step, handleEndSession, hw, hsid];
             constructor;
             · apply fas_of_no_stop
               simp only [hasStop_append, releaseObs_hasStop, Bool.false_or]
               rfl
             · intro hc
               simp only [hasStop_append, releaseObs_hasStop, Bool.false_or] at hc
               simp [hasStop, isStopObs] at hc)
      | closed =>
          cases hsid : s.sessionId <;> cases so <;>
            (simp only [step, handleEndSession, hw, hsid];
             constructor;
             · apply fas_of_no_stop
               simp only [hasStop_append, releaseObs_hasStop, Bool.false_or]
               rfl
             · intro hc
               simp only [hasStop_append, releaseObs_hasStop, Bool.false_or] at hc
               simp [hasStop, isStopObs] at hc)
      | opened =>
          cases hsid : s.sessionId <;> cases so <;>
            (simp only [step, handleEndSession, hw, hsid];
             constructor;
             · rw [List.append_assoc]
               exact fas_append_false _ _
                 (fas_of_no_stop _ (releaseObs_hasStop s)) (fun _ => rfl) rfl
             · intro hc
               exact ⟨by simp, by simp⟩)

lemma run_fas (acts : List Act) : ∀ s : MachineState,
    framesAfterStop (run s acts).2 = false := by
  induction acts with
  | nil => intro s; rfl
  | cons a acts ih =>
      intro s
      show framesAfterStop ((step s a).2 ++ (run (step s a).1 acts).2) = false
      apply fas_append_false
      · exact (step_fas s a).1
      · intro hs
        exact (run_dead acts _ ((step_fas s a).2 hs)).2
      · exact ih (step s a).1

/-- C1: in every interleaved run of the session engine, from any state, no
binary audio frame is ever sent on the channel after the `{type:'stop'}`
control message has been sent on it; and `end()` from a live recording
session performs the teardown in strict order — disconnect the processor,
close the audio context, stop the microphone tracks, send the stop message
and close the channel, then (and only then) issue the single summary
request. -/
theorem c1_no_frame_after_stop (s : MachineState) (acts : List Act)
    (id : String) (tr : List TranscriptEntry) (sg : List Suggestion)
    (so : SummaryOutcome) :
    framesAfterStop (run s acts).2 = false ∧
    (handleEndSession so (recordingState id tr sg)).2 =
      [Obs.procDisconnect, Obs.ctxClose, Obs.trackStop,
       Obs.chan ChanEvent.stopMsg, Obs.chan ChanEvent.close,
       Obs.summaryRequest id] ++ endToastObs so := by
  refine ⟨run_fas acts s, ?_⟩
  cases so <;> rfl

/-! ## Pause behaviour (claims C3 and C10) -/

/-- The invariant relating the pause flag to the audio-processing context:
whenever the flag is set the context is suspended, and the context can only
be running while it exists.  Established by `start()` and preserved by
every callback. -/
def pauseInv (s : MachineState) : Prop :=
  (s.isPaused = true → s.contextRunning = false) ∧
  (s.contextRunning = true → s.contextOpen = true)

lemma handleTogglePause_pauseInv (s : MachineState) (h : pauseInv s) :
    pauseInv (handleTogglePause s) := by
  by_cases hp : s.isPaused = true
  · -- resume branch
    rw [handleTogglePause, if_pos hp]
    constructor
    · intro hc
      exact absurd hc (by simp)
    · intro hr
      by_cases hco : (s.contextOpen && !s.contextRunning) = true
      · simp only [hco, if_pos rfl]
        exact (Bool.and_eq_true_iff.mp hco).1
      · simp only [hco] at hr ⊢
        simp only [Bool.false_eq_true, if_false] at hr ⊢
        exact h.2 hr
  · -- pause branch
    rw [handleTogglePause, if_neg hp]
    constructor
    · intro _
      by_cases hco : (s.contextOpen && s.contextRunning) = true
      · simp [hco]
      · simp only [hco, Bool.false_eq_true, if_false]
        cases hr : s.contextRunning with
        | false => rfl
        | true => exact absurd (by rw [h.2 hr, hr]; rfl) hco
    · intro hr
      by_cases hco : (s.contextOpen && s.contextRunning) = true
      · simp only [hco, if_pos rfl] at hr
        exact Bool.noConfusion hr
      · simp only [hco, Bool.false_eq_true, if_false] at hr
        exact h.2 hr

lemma handleEndSession_pauseInv (so : SummaryOutcome) (s : MachineState) :
    pauseInv (handleEndSession so s).1 := by
  cases hw : s.wsConn <;> cases hsid : s.sessionId <;> cases so <;>
    (simp only [handleEndSession, hw, hsid];
     exact ⟨fun _ => rfl, fun hc => Bool.noConfusion hc⟩)

lemma step_pauseInv (s : MachineState) (a : Act) (h : pauseInv s) :
    pauseInv (step s a).1 := by
  cases a with
  | captureTick x =>
      by_cases ho : s.processorConnected = true ∧ s.contextRunning = true
      · by_cases hw : s.wsConn = WsConn.opened ∧ s.capturedPaused = false
        · simpa only [step, if_pos ho, if_pos hw] using h
        · simpa only [step, if_pos ho, if_neg hw] using h
      · simpa only [step, if_neg ho] using h
  | wsOpened =>
      cases hw : s.wsConn <;> simp only [step, hw] <;> exact h
  | wsClosedRemote =>
      cases hw : s.wsConn <;> simp only [step, hw] <;> exact h
  | togglePause => exact handleTogglePause_pauseInv s h
  | endSession so => exact handleEndSession_pauseInv so s
  | inbound d =>
      by_cases hw : s.wsConn = WsConn.opened
      · simp only [step, if_pos hw]
        obtain ⟨-, -, -, hip, -, -, -, -, hco, hcr, -, -, -, -⟩ :=
          (deliverMessage_shape s d).1
        constructor
        · intro hp
          rw [hip] at hp
          rw [hcr]
          exact h.1 hp
        · intro hr
          rw [hcr] at hr
          rw [hco]
          exact h.2 hr
      · simpa only [step, if_neg hw] using h

/-- C3: while the session is paused, zero audio frames are delivered to the
channel — the invariant `pauseInv` holds after `start()` and is preserved
by every callback, and under it a paused state makes the capture tick emit
nothing (the context is suspended, so the platform never runs the
callback); resuming within the same session flips the flag back, resumes
the context, leaves the channel and the session id untouched, and the very
next capture tick delivers its frame again. -/
theorem c3_paused_no_frames :
    (∀ (s : MachineState) (a : Act), pauseInv s → pauseInv (step s a).1) ∧
    (∀ (s : MachineState) (x : List ℚ), pauseInv s → s.isPaused = true →
      (step s (Act.captureTick x)).2 = []) ∧
    (∀ s : MachineState, s.isPaused = true → s.contextOpen = true →
      (handleTogglePause s).isPaused = false ∧
      (handleTogglePause s).contextRunning = true ∧
      (handleTogglePause s).wsConn = s.wsConn ∧
      (handleTogglePause s).sessionId = s.sessionId ∧
      (∀ x : List ℚ, s.processorConnected = true → s.wsConn = WsConn.opened →
        s.capturedPaused = false →
        (step (handleTogglePause s) (Act.captureTick x)).2 =
          [Obs.chan (ChanEvent.frame (floatTo16BitPCM x))])) ∧
    (∀ (ctx : SessionContext) (id : String) (s : MachineState),
      pauseInv (handleStartRecording ctx (CreateOutcome.ok id) MicOutcome.ok s).1) := by
  refine ⟨step_pauseInv, ?_, ?_, ?_⟩
  · intro s x h hp
    have hcr : s.contextRunning = false := h.1 hp
    have hno : ¬(s.processorConnected = true ∧ s.contextRunning = true) := by
      intro hc
      rw [hcr] at hc
      exact Bool.noConfusion hc.2
    simp only [step, if_neg hno]
  · intro s hp hco
    have hrun : (handleTogglePause s).contextRunning = true := by
      rw [handleTogglePause, if_pos hp]
      cases hr : s.contextRunning with
      | false => simp [hco, hr]
      | true => simp [hco, hr]
    obtain ⟨hw, hsid, hproc, hcap, -⟩ := handleTogglePause_untouched s
    refine ⟨by rw [handleTogglePause, if_pos hp], hrun, hw, hsid, ?_⟩
    intro x h1 h2 h3
    have ho : (handleTogglePause s).processorConnected = true ∧
        (handleTogglePause s).contextRunning = true := ⟨hproc.trans h1, hrun⟩
    have hwc : (handleTogglePause s).wsConn = WsConn.opened ∧
        (handleTogglePause s).capturedPaused = false :=
      ⟨hw.trans h2, hcap.trans h3⟩
    simp only [step, if_pos ho, if_pos hwc]
  · intro ctx id s
    exact ⟨fun hc => Bool.noConfusion hc, fun _ => rfl⟩

/-- C3 witness: the paused mid-session state with a suspended context
satisfies the invariant, delivers no frame on a capture tick, and resuming
from it restores frame delivery on the same channel and session. -/
theorem c3_witness :
    pauseInv { recordingState "sess-1" [] [] with
        isPaused := true, contextRunning := false } ∧
    (step { recordingState "sess-1" [] [] with
        isPaused := true, contextRunning := false }
      (Act.captureTick [1, 0, -1])).2 = [] ∧
    (handleTogglePause { recordingState "sess-1" [] [] with
        isPaused := true, contextRunning := false }).isPaused = false ∧
    (step (handleTogglePause { recordingState "sess-1" [] [] with
        isPaused := true, contextRunning := false })
      (Act.captureTick [1, 0, -1])).2 =
        [Obs.chan (ChanEvent.frame (floatTo16BitPCM [1, 0, -1]))] := by
  have hinv : pauseInv { recordingState "sess-1" [] [] with
      isPaused := true, contextRunning := false } :=
    ⟨fun _ => rfl, fun hc => Bool.noConfusion hc⟩
  have h3 := c3_paused_no_frames.2.2.1
    { recordingState "sess-1" [] [] with isPaused := true, contextRunning := false }
    rfl rfl
  exact ⟨hinv,
    c3_paused_no_frames.2.1 _ _ hinv rfl,
    h3.1,
    h3.2.2.2.2 [1, 0, -1] rfl rfl rfl⟩

/-- C10: the pause condition evaluated by the installed capture callback is
the `isPaused` value captured at installation time (the value in the render
scope in which `start()` ran, `false` when starting from the idle screen),
not the current flag: a capture tick is insensitive to the current
`isPaused` value, and with the captured value `false` the callback emits a
frame exactly when the processor is connected, the context is running and
the socket is open — the not-paused gate never blocks a frame, so
suppression during `Paused` comes exclusively from suspending the audio
context in the pause handler. -/
theorem c10_stale_pause_flag :
    (∀ (ctx : SessionContext) (id : String) (s : MachineState),
      (handleStartRecording ctx (CreateOutcome.ok id) MicOutcome.ok s).1.capturedPaused
        = s.isPaused) ∧
    idleState.isPaused = false ∧
    (∀ (s : MachineState) (b : Bool) (x : List ℚ),
      (step { s with isPaused := b } (Act.captureTick x)).2 =
        (step s (Act.captureTick x)).2) ∧
    (∀ (s : MachineState) (x : List ℚ), s.capturedPaused = false →
      (step s (Act.captureTick x)).2 =
        (if s.processorConnected = true ∧ s.contextRunning = true ∧
            s.wsConn = WsConn.opened
         then [Obs.chan (ChanEvent.frame (floatTo16BitPCM x))] else [])) := by
  refine ⟨fun ctx id s => rfl, rfl, ?_, ?_⟩
  · intro s b x
    by_cases h1 : s.processorConnected = true ∧ s.contextRunning = true <;>
      by_cases h2 : s.wsConn = WsConn.opened ∧ s.capturedPaused = false <;>
      simp [step, h1, h2]
  intro s x h
  by_cases h1 : s.processorConnected = true
  · by_cases h2 : s.contextRunning = true
    · by_cases h3 : s.wsConn = WsConn.opened
      · simp [step, h, h1, h2, h3]
      · simp [step, h, h1, h2, h3]
    · simp [step, h1, h2]
  · simp [step, h1]

/-- C10 witness: starting from the idle screen installs the captured value
`false`, and a capture tick in a state whose current `isPaused` flag is
`true` (but whose context is still running and socket open) still emits its
frame — the gate in the callback does not block it. -/
theorem c10_witness :
    (handleStartRecording ctxAna (CreateOutcome.ok "sess-1") MicOutcome.ok
        idleState).1.capturedPaused = false ∧
    (step { recordingState "sess-1" [] [] with isPaused := true }
        (Act.captureTick [1])).2 =
      [Obs.chan (ChanEvent.frame (floatTo16BitPCM [1]))] := by
  constructor
  · exact (c10_stale_pause_flag.1 ctxAna "sess-1" idleState).trans
      c10_stale_pause_flag.2.1
  · have h4 := c10_stale_pause_flag.2.2.2
      { recordingState "sess-1" [] [] with isPaused := true } [1] rfl
    rw [h4, if_pos ⟨rfl, rfl, rfl⟩]
